import Mathlib

/-!
Shallow embedding of `veloxdb.go` (package `velox`): an in-process record
store with named tables, integer-keyed records, and a directory-based JSON
snapshot (`Load` / `Save`).

Modelling conventions, each justified against the Go source:

* `cmap.ConcurrentMap` (the external concurrent-map dependency) is modelled
  as an association list with `Set` = replace-or-append, `Get` = lookup,
  `Remove` = delete.  Record keys in Go are `strconv.Itoa(id)`; since `Itoa`
  is injective on `int` we key directly by the integer id.
* Go `int` is modelled as `Int` (identifier exhaustion is an acknowledged
  unhandled edge case, so no wrap-around is modelled).
* `interface\x7b\x7d` values stored in the two maps are modelled by small sum
  types: record slots hold `RVal` (every `Set` in the source stores a
  `Record`, but the read path type-asserts, so the non-`Record` case is kept
  representable), and table slots hold `TValue`, distinguishing a `Table`
  stored *by value* (`CreateTable` stores `*NewTable()` dereferenced) from a
  `*Table` stored as a pointer (`Load` stores the `table` pointer itself).
  This distinction is what makes `Save`'s unchecked assertion `val.(*Table)`
  panic for tables registered through `CreateTable`.
* Pointer structure that the claims exercise is made explicit: `records`
  is a pointer field of `Table`, so a copied `Table` value shares the
  record map but owns its own `nextID`.  We model this with an explicit
  record heap (`recHeap`) addressed by `Nat`, and a table heap
  (`tableHeap`) for heap-allocated `Table`s (`NewTable` allocations).
* File contents are modelled symbolically by `FileData`: well-formed
  catalogs / record arrays, and malformed variants.  A failed
  `Decode(&records)` leaves the target slice in a decoder-dependent
  partially-filled state; the `malformedRecords` constructor carries that
  leftover slice.  Write failures (disk/permission errors) are modelled by
  a set of failing paths in the file system state.
* Error values (`errors.New` / `fmt.Errorf`) are modelled by their message
  strings; a Go `panic` is a distinct outcome, not an error return.
-/

namespace Velox

/-- Record payloads are opaque to the engine (`interface` values the code
never inspects); a small value type with decidable equality stands in for
them. -/
inductive Data where
  | null : Data
  | num (n : Int) : Data
  | str (s : String) : Data
deriving DecidableEq, Repr

/-- Mirrors `type Record struct \x7b ID int; Data interface\x7b\x7d \x7d`. -/
structure Record where
  id : Int
  data : Data
deriving DecidableEq, Repr

/-- A value stored in a table's record map.  Every `records.Set` in the
source stores a `Record`, but `ReadRecord` / `UpdateRecord` / `Save`
type-assert the stored value, so the foreign case stays representable. -/
inductive RVal where
  | rcd (r : Record) : RVal
  | other : RVal
deriving DecidableEq, Repr

/-- Association-list lookup, modelling `cmap.ConcurrentMap.Get`. -/
def alGet {α β : Type} [DecidableEq α] : List (α × β) → α → Option β
  | [], _ => none
  | (k, v) :: rest, k0 => if k = k0 then some v else alGet rest k0

/-- Association-list insert-or-replace, modelling `cmap.ConcurrentMap.Set`. -/
def alSet {α β : Type} [DecidableEq α] : List (α × β) → α → β → List (α × β)
  | [], k0, v0 => [(k0, v0)]
  | (k, v) :: rest, k0, v0 =>
      if k = k0 then (k0, v0) :: rest else (k, v) :: alSet rest k0 v0

/-- Association-list delete, modelling `cmap.ConcurrentMap.Remove`. -/
def alRemove {α β : Type} [DecidableEq α] : List (α × β) → α → List (α × β)
  | [], _ => []
  | (k, v) :: rest, k0 =>
      if k = k0 then alRemove rest k0 else (k, v) :: alRemove rest k0

/-- The record map of one table (`records *cmap.ConcurrentMap`), keyed by
the integer id (Go keys are `strconv.Itoa id`, and `Itoa` is injective). -/
abbrev RecMap := List (Int × RVal)

/-- The in-memory fields of `type Table struct`: the `records` pointer is a
heap address into the database's record heap, `nextID` is the counter.
(The `sync.RWMutex` field is irrelevant to the sequential semantics.) -/
structure GoTable where
  recordsPtr : Nat
  nextID : Int
deriving DecidableEq, Repr

/-- A table-registry slot (`database.tables` stores `interface` values):
`CreateTable` stores `*NewTable()` dereferenced — a `Table` VALUE — while
`Load` stores the `*Table` pointer returned by `NewTable()`. -/
inductive TValue where
  | val (t : GoTable) : TValue
  | ref (addr : Nat) : TValue
deriving DecidableEq, Repr

/-- Mirrors `type Database struct`: the table registry, the `folder` set by
`Load`, the `lastSave` stamp set by `Save`, plus the two explicit heaps
that carry the pointer structure of the Go program. -/
structure DBState where
  tables : List (String × TValue)
  folder : String
  lastSave : String
  recHeap : List RecMap
  tableHeap : List GoTable
deriving DecidableEq, Repr

/-- Mirrors `NewDatabase()`: empty registry, empty heaps. -/
def newDatabase : DBState := ⟨[], "", "", [], []⟩

/-- Dereferences a `records` pointer; every address reached through the
operations below is valid, the default covers the out-of-range case only
for totality. -/
def heapRecs (db : DBState) (p : Nat) : RecMap := (db.recHeap.get? p).getD []

/-- Dereferences a `*Table`; same totality remark as `heapRecs`. -/
def heapTable (db : DBState) (a : Nat) : GoTable :=
  (db.tableHeap.get? a).getD ⟨0, 1⟩

/-- Mirrors `NewTable()`: heap-allocates a fresh empty record map and a
fresh `Table \x7b records: fresh, nextID: 1 \x7d`, returning the table's heap
address. -/
def newTable (db : DBState) : DBState × Nat :=
  let rp := db.recHeap.length
  let ta := db.tableHeap.length
  ({ db with
      recHeap := db.recHeap ++ [[]],
      tableHeap := db.tableHeap ++ [⟨rp, 1⟩] }, ta)

/-- The per-table state a method body works on: the record map reached
through the `records` pointer, plus the `nextID` field of the receiver. -/
structure TableState where
  recs : RecMap
  nextID : Int
deriving DecidableEq, Repr

/-- Mirrors `Table.CreateRecord`: `id := nextID; nextID++`, build
`Record\x7bID: id, Data: record\x7d`, `records.Set(Itoa(id), data)`, and
`return &data, nil` — the error component is literally `nil` (`none`). -/
def createRecord (t : TableState) (d : Data) : TableState × Record × Option String :=
  let id := t.nextID
  let r : Record := ⟨id, d⟩
  (⟨alSet t.recs id (RVal.rcd r), id + 1⟩, r, none)

/-- Mirrors `Table.ReadRecord`: `Get` then the checked assertion
`val.(Record)`; returns the record's `Data` field. -/
def readRecord (t : TableState) (id : Int) : Except String Data :=
  match alGet t.recs id with
  | none => .error "ReadRecord: record not found"
  | some (RVal.rcd r) => .ok r.data
  | some RVal.other => .error "ReadRecord: invalid record type"

/-- Mirrors `Table.UpdateRecord`: `Get`, checked assertion `val.(Record)`,
`updateRecord.Data = record`, `Set(Itoa(id), updateRecord)` — the stored
`ID` field is kept, `nextID` untouched. -/
def updateRecord (t : TableState) (id : Int) (d : Data) : Except String TableState :=
  match alGet t.recs id with
  | none => .error "UpdateRecord: record not found"
  | some (RVal.rcd r) => .ok ⟨alSet t.recs id (RVal.rcd ⟨r.id, d⟩), t.nextID⟩
  | some RVal.other => .error "UpdateRecord: invalid record type"

/-- Mirrors `Table.DeleteRecord`: existence check via `Get`, then
`Remove`. -/
def deleteRecord (t : TableState) (id : Int) : Except String TableState :=
  match alGet t.recs id with
  | none => .error "DeleteRecord: record not found"
  | some _ => .ok ⟨alRemove t.recs id, t.nextID⟩

/-- Mirrors `Database.CreateTable`: check-then-insert; on success stores
`*NewTable()` — the freshly allocated `Table` copied out BY VALUE (the
heap `Table` object itself becomes garbage but its record map is shared
through the copied `records` pointer). -/
def createTable (db : DBState) (name : String) : Except String DBState :=
  match alGet db.tables name with
  | some _ => .error "CreateTable: table already exists"
  | none =>
    let rp := db.recHeap.length
    let (db1, _) := newTable db
    .ok { db1 with tables := alSet db1.tables name (TValue.val ⟨rp, 1⟩) }

/-- Mirrors `Database.GetTable`: looks the name up and returns `&table`, a
pointer to a local copy of the stored `interface` value.  The handle a
caller ultimately operates through is the type-asserted content of that
copy, i.e. the stored `TValue` itself: a `Table` value copy for
`CreateTable`-registered tables, a shared `*Table` for loaded ones. -/
def getTable (db : DBState) (name : String) : Except String TValue :=
  match alGet db.tables name with
  | none => .error "GetTable: table not found"
  | some v => .ok v

/-- CreateRecord invoked through a handle obtained from `GetTable`.  For a
by-value handle the method mutates the shared record map (through the
copied `records` pointer) but only the handle-local copy of `nextID`; for
a `*Table` handle both live on the heap. -/
def handleCreate (db : DBState) (h : TValue) (d : Data) : DBState × TValue × Record :=
  match h with
  | .val t =>
    let st : TableState := ⟨heapRecs db t.recordsPtr, t.nextID⟩
    let (st2, r, _) := createRecord st d
    ({ db with recHeap := db.recHeap.set t.recordsPtr st2.recs },
     .val ⟨t.recordsPtr, st2.nextID⟩, r)
  | .ref a =>
    let t := heapTable db a
    let st : TableState := ⟨heapRecs db t.recordsPtr, t.nextID⟩
    let (st2, r, _) := createRecord st d
    ({ db with recHeap := db.recHeap.set t.recordsPtr st2.recs,
               tableHeap := db.tableHeap.set a ⟨t.recordsPtr, st2.nextID⟩ },
     .ref a, r)

/-- ReadRecord invoked through a handle obtained from `GetTable`. -/
def handleRead (db : DBState) (h : TValue) (id : Int) : Except String Data :=
  match h with
  | .val t => readRecord ⟨heapRecs db t.recordsPtr, t.nextID⟩ id
  | .ref a =>
    let t := heapTable db a
    readRecord ⟨heapRecs db t.recordsPtr, t.nextID⟩ id

/-- Symbolic content of one on-disk file.  `malformedRecords` is a file
that fails to decode as `[]Record`; it carries whatever leftover slice the
failed `Decode(&records)` call leaves behind (decoder-dependent, possibly
empty). -/
inductive FileData where
  | catalogJson (names : List String) : FileData
  | recordsJson (recs : List Record) : FileData
  | malformedRecords (leftover : List Record) : FileData
  | malformedJson : FileData
deriving DecidableEq, Repr

/-- Decoding a file as the `map[string]interface\x7b\x7d` catalog: only a
well-formed JSON object succeeds; its key set is the name list. -/
def decodeCatalog : FileData → Option (List String)
  | FileData.catalogJson names => some names
  | _ => none

/-- Decoding a file as `[]Record`: a well-formed record array succeeds; a
JSON object or malformed text fails, leaving the leftover slice. -/
def decodeRecords : FileData → Except (List Record) (List Record)
  | FileData.recordsJson rs => .ok rs
  | FileData.malformedRecords leftover => .error leftover
  | FileData.catalogJson _ => .error []
  | FileData.malformedJson => .error []

/-- The file system: path-indexed contents, plus the set of paths on which
`os.WriteFile` fails (permissions, disk errors). -/
structure FS where
  files : List (String × FileData)
  badPaths : List String
deriving DecidableEq, Repr

/-- Mirrors `os.Open` + read: `none` models an open error (missing file). -/
def fsRead (fs : FS) (path : String) : Option FileData := alGet fs.files path

/-- Mirrors `os.WriteFile`: fails (returns `false`) on a bad path,
otherwise overwrites. -/
def fsWrite (fs : FS) (path : String) (fd : FileData) : FS × Bool :=
  if fs.badPaths.contains path then (fs, false)
  else ({ fs with files := alSet fs.files path fd }, true)

/-- Mirrors the body of `Load`'s record loop: `records.Set(Itoa(ID), record)`
and `if record.ID >= table.nextID \x7b table.nextID = record.ID + 1 \x7d`. -/
def recomputeInsert (t : TableState) (r : Record) : TableState :=
  ⟨alSet t.recs r.id (RVal.rcd r), if r.id ≥ t.nextID then r.id + 1 else t.nextID⟩

/-- Folds `recomputeInsert` over a decoded slice, exactly the
`for _, record := range records` loop of `Load`. -/
def loadRecords (t : TableState) (rs : List Record) : TableState :=
  rs.foldl recomputeInsert t

/-- Mirrors the `for name := range tables` loop of `Load`: per name,
allocate `NewTable()`, open `folder + name + ".json"` (open failure aborts
the whole Load), decode as `[]Record`, and — exactly as the source has it —
populate and register the table ONLY in the `err != nil` branch, i.e. only
when decoding FAILED; a successful decode falls through and the fresh
table is dropped.  Registered tables are stored as `*Table` pointers. -/
def loadTables (fs : FS) (db : DBState) (folder : String) :
    List String → DBState × Option String
  | [] => (db, none)
  | name :: rest =>
    let (db1, ta) := newTable db
    match fsRead fs (folder ++ name ++ ".json") with
    | none => (db1, some "Database_Load: open table file failed")
    | some fd =>
      match decodeRecords fd with
      | .ok _ => loadTables fs db1 folder rest
      | .error leftover =>
        let t0 := heapTable db1 ta
        let t1 := loadRecords ⟨heapRecs db1 t0.recordsPtr, t0.nextID⟩ leftover
        let db2 := { db1 with
            recHeap := db1.recHeap.set t0.recordsPtr t1.recs,
            tableHeap := db1.tableHeap.set ta ⟨t0.recordsPtr, t1.nextID⟩,
            tables := alSet db1.tables name (TValue.ref ta) }
        loadTables fs db2 folder rest

/-- Mirrors `Database.Load`: open `folder + "master.json"` (failure is an
error return), record `database.folder = folder`, decode the catalog
(failure is an error return), then run the per-table loop.  Note the prior
table registry is never cleared. -/
def load (fs : FS) (db : DBState) (folder : String) : DBState × Option String :=
  match fsRead fs (folder ++ "master.json") with
  | none => (db, some "Database_Load: open master failed")
  | some fd =>
    let db1 := { db with folder := folder }
    match decodeCatalog fd with
    | none => (db1, some "Database_Load: decode master failed")
    | some names => loadTables fs db1 folder names

/-- Outcome of `Save`: either the function returns (and the source's only
`return` statement is `return nil`), or a type assertion panicked. -/
inductive SaveOutcome where
  | completed : SaveOutcome
  | panicked : SaveOutcome
deriving DecidableEq, Repr

/-- Mirrors `Save`'s inner `IterCb`, `data = append(data, val.(Record))`:
the unchecked assertion panics on a non-`Record` slot. -/
def collectRecords : RecMap → Option (List Record)
  | [] => some []
  | (_, RVal.rcd r) :: rest => (collectRecords rest).map (fun l => r :: l)
  | (_, RVal.other) :: _ => none

/-- Mirrors `Save`'s outer `IterCb` over `database.tables`:
`table := val.(*Table)` is an UNCHECKED assertion, so a slot holding a
`Table` value (anything registered by `CreateTable`) panics; for `*Table`
slots the records are collected (`jsoniter.Marshal` of a record slice
cannot fail for representable payloads), and the per-table file
`folder + os.PathSeparator + name + ".json"` is written with any write
error merely printed and discarded. -/
def saveTables (fs : FS) (db : DBState) :
    List (String × TValue) → FS × SaveOutcome
  | [] => (fs, .completed)
  | (_, TValue.val _) :: _ => (fs, .panicked)
  | (name, TValue.ref a) :: rest =>
    let t := heapTable db a
    match collectRecords (heapRecs db t.recordsPtr) with
    | none => (fs, .panicked)
    | some data =>
      let filename := db.folder ++ "/" ++ name ++ ".json"
      let (fs1, _) := fsWrite fs filename (FileData.recordsJson data)
      saveTables fs1 db rest

/-- Mirrors `Database.Save`: iterate all tables (never writing any catalog
file), stamp `lastSave`, and `return nil` — unless a type assertion
panicked along the way. -/
def save (fs : FS) (db : DBState) (now : String) : FS × DBState × SaveOutcome :=
  let (fs1, out) := saveTables fs db db.tables
  match out with
  | .panicked => (fs1, db, .panicked)
  | .completed => (fs1, { db with lastSave := now }, .completed)

/-- Integer ranges `[k, k+1, ..., k+n-1]`, used to state the id sequence
returned by repeated `CreateRecord` calls. -/
def intRange (k : Int) : Nat → List Int
  | 0 => []
  | n + 1 => k :: intRange (k + 1) n

/-- Runs `CreateRecord` once per payload, collecting the returned ids and
error values in call order. -/
def createAll (t : TableState) (ds : List Data) : TableState × List Int × List (Option String) :=
  match ds with
  | [] => (t, [], [])
  | d :: rest =>
    let (t1, r, e) := createRecord t d
    let (t2, ids, errs) := createAll t1 rest
    (t2, r.id :: ids, e :: errs)

/-- Mirrors the `Table` constructed by `NewTable()` as seen through its own
methods: empty record map, `nextID = 1`. -/
def newTableState : TableState := ⟨[], 1⟩

/-- Table-level operations used to describe the states reachable through
the public API of one `Table` (`Read` performs no transition). -/
inductive TOp where
  | create (d : Data) : TOp
  | update (id : Int) (d : Data) : TOp
  | delete (id : Int) : TOp

/-- One public operation applied to a table state, with a ghost history of
every identifier the table has ever issued. -/
def applyOp (s : TableState × List Int) : TOp → TableState × List Int
  | TOp.create d =>
    let (t2, r, _) := createRecord s.1 d
    (t2, r.id :: s.2)
  | TOp.update id d =>
    match updateRecord s.1 id d with
    | .ok t2 => (t2, s.2)
    | .error _ => (s.1, s.2)
  | TOp.delete id =>
    match deleteRecord s.1 id with
    | .ok t2 => (t2, s.2)
    | .error _ => (s.1, s.2)

/-- All states of one table reachable from `NewTable()` through the public
operations, as the fold of an operation sequence. -/
def runOps (ops : List TOp) : TableState × List Int :=
  ops.foldl applyOp (newTableState, [])

/-- Invariant of one table operated on through its own methods, with the
ghost list of all identifiers it ever issued: stored values are records
keyed by their own `ID` field, and every issued id is below `nextID`. -/
def TInv (s : TableState × List Int) : Prop :=
  (∀ k v, alGet s.1.recs k = some v → ∃ r, v = RVal.rcd r ∧ r.id = k) ∧
  (∀ id, id ∈ s.2 → id < s.1.nextID)

/-- The database produced by `CreateTable("t")` on a fresh database: the
registry holds a `Table` VALUE whose record map lives at heap address 0. -/
def dbT : DBState := ⟨[("t", TValue.val ⟨0, 1⟩)], "", "", [[]], [⟨0, 1⟩]⟩

/-- The database produced by `CreateTable("users")` on a fresh database. -/
def dbUsers : DBState := ⟨[("users", TValue.val ⟨0, 1⟩)], "", "", [[]], [⟨0, 1⟩]⟩

/-- The database produced by `CreateTable("old")` on a fresh database. -/
def dbOld : DBState := ⟨[("old", TValue.val ⟨0, 1⟩)], "", "", [[]], [⟨0, 1⟩]⟩

/-- A directory whose catalog names table `t` and whose `t.json` exists
but holds malformed JSON (the failed decode leaves one leftover record). -/
def fsC2 : FS := ⟨[("d/master.json", FileData.catalogJson ["t"]),
                  ("d/t.json", FileData.malformedRecords [⟨7, Data.num 1⟩])], []⟩

/-- A directory from which `t` loads (through the inverted decode branch),
whose per-table save path `e//t.json` then fails to write. -/
def fsC3 : FS := ⟨[("e/master.json", FileData.catalogJson ["t"]),
                  ("e/t.json", FileData.malformedRecords [⟨1, Data.num 5⟩])], ["e//t.json"]⟩

/-- A directory whose catalog names table `t` and whose `t.json` is a
well-formed record array. -/
def fsC5 : FS := ⟨[("f/master.json", FileData.catalogJson ["t"]),
                  ("f/t.json", FileData.recordsJson [⟨1, Data.num 3⟩])], []⟩

/-- A directory with a two-table catalog: `t.json` well-formed,
`u.json` malformed. -/
def fsC5w : FS := ⟨[("f/master.json", FileData.catalogJson ["t", "u"]),
                   ("f/t.json", FileData.recordsJson [⟨1, Data.num 3⟩]),
                   ("f/u.json", FileData.malformedRecords [⟨2, Data.num 9⟩])], []⟩

theorem alGet_alSet_self {α β : Type} [DecidableEq α] (m : List (α × β)) (k : α) (v : β) :
    alGet (alSet m k v) k = some v := by
  induction m with
  | nil => simp [alGet, alSet]
  | cons p rest ih =>
    by_cases h : p.1 = k
    · simp [alSet, h, alGet]
    · simp [alSet, h, alGet, ih]

theorem alGet_alSet_ne {α β : Type} [DecidableEq α] (m : List (α × β)) (k k2 : α) (v : β)
    (h : k2 ≠ k) : alGet (alSet m k v) k2 = alGet m k2 := by
  have h2 : ¬(k = k2) := fun he => h he.symm
  induction m with
  | nil => simp [alGet, alSet, h2]
  | cons p rest ih =>
    obtain ⟨k1, v1⟩ := p
    by_cases hp : k1 = k
    · subst hp
      simp [alSet, alGet, h2]
    · simp only [alSet, hp, if_false, alGet]
      by_cases hp2 : k1 = k2
      · simp [hp2]
      · simp [hp2, ih]

theorem alGet_alRemove_self {α β : Type} [DecidableEq α] (m : List (α × β)) (k : α) :
    alGet (alRemove m k) k = none := by
  induction m with
  | nil => simp [alGet, alRemove]
  | cons p rest ih =>
    obtain ⟨k1, v1⟩ := p
    by_cases h : k1 = k
    · simp [alRemove, h, ih]
    · simp [alRemove, h, alGet, ih]

theorem alGet_alRemove_ne {α β : Type} [DecidableEq α] (m : List (α × β)) (k k2 : α)
    (h : k2 ≠ k) : alGet (alRemove m k) k2 = alGet m k2 := by
  have h2 : ¬(k = k2) := fun he => h he.symm
  induction m with
  | nil => simp [alGet, alRemove]
  | cons p rest ih =>
    obtain ⟨k1, v1⟩ := p
    by_cases hp : k1 = k
    · subst hp
      simp [alRemove, alGet, h2, ih]
    · simp [alRemove, hp, alGet, ih]

theorem createAll_ids (ds : List Data) (t : TableState) :
    (createAll t ds).2.1 = intRange t.nextID ds.length ∧
    (createAll t ds).2.2 = List.replicate ds.length none := by
  induction ds generalizing t with
  | nil => simp [createAll, intRange]
  | cons d rest ih =>
    have h := ih ⟨alSet t.recs t.nextID (RVal.rcd ⟨t.nextID, d⟩), t.nextID + 1⟩
    simp [createAll, createRecord, intRange, List.replicate, h.1, h.2]

/-- C6: starting from an empty table (`NewTable()`), a sequence of `n`
`CreateRecord` calls returns exactly the identifiers `1, 2, ..., n`, in
order and without duplicates or gaps, and every call returns a `nil`
error. -/
theorem claim6_create_ids (ds : List Data) :
    (createAll newTableState ds).2.1 = intRange 1 ds.length ∧
    (createAll newTableState ds).2.2 = List.replicate ds.length none :=
  createAll_ids ds newTableState

/-- C8: on an id whose slot holds a record, `UpdateRecord` succeeds,
re-stores the record with its `ID` field preserved and the payload
replaced, changes no other slot and not `nextID`, and an immediate
`ReadRecord` of that id returns exactly the new payload; on an absent id
it fails with the NotFound error (returning an error leaves the table
state unchanged by construction). -/
theorem claim8_update_frame (t : TableState) (id : Int) (d : Data) :
    (∀ r, alGet t.recs id = some (RVal.rcd r) →
      ∃ t2, updateRecord t id d = Except.ok t2 ∧
        alGet t2.recs id = some (RVal.rcd ⟨r.id, d⟩) ∧
        (∀ k, k ≠ id → alGet t2.recs k = alGet t.recs k) ∧
        t2.nextID = t.nextID ∧
        readRecord t2 id = Except.ok d) ∧
    (alGet t.recs id = none →
      updateRecord t id d = Except.error "UpdateRecord: record not found") := by
  constructor
  · intro r hr
    refine ⟨⟨alSet t.recs id (RVal.rcd ⟨r.id, d⟩), t.nextID⟩, ?_, ?_, ?_, rfl, ?_⟩
    · simp [updateRecord, hr]
    · exact alGet_alSet_self _ _ _
    · intro k hk
      exact alGet_alSet_ne _ _ _ _ hk
    · simp [readRecord, alGet_alSet_self]
  · intro h
    simp [updateRecord, h]

/-- C10: `CreateTable` fails with AlreadyExists exactly when the name is
registered and otherwise registers an empty table value under the name;
`GetTable` fails with NotFound exactly when the name is unregistered and
otherwise returns the stored slot. -/
theorem claim10_registry (db : DBState) (name : String) :
    (alGet db.tables name = none →
      (∃ db2, createTable db name = Except.ok db2 ∧
        alGet db2.tables name = some (TValue.val ⟨db.recHeap.length, 1⟩) ∧
        heapRecs db2 db.recHeap.length = []) ∧
      getTable db name = Except.error "GetTable: table not found") ∧
    (∀ v, alGet db.tables name = some v →
      createTable db name = Except.error "CreateTable: table already exists" ∧
      getTable db name = Except.ok v) := by
  constructor
  · intro h
    refine ⟨⟨{ db with
        tables := alSet db.tables name (TValue.val ⟨db.recHeap.length, 1⟩),
        recHeap := db.recHeap ++ [[]],
        tableHeap := db.tableHeap ++ [⟨db.recHeap.length, 1⟩] }, ?_, ?_, ?_⟩,
      by simp [getTable, h]⟩
    · simp [createTable, h, newTable]
    · exact alGet_alSet_self _ _ _
    · simp [heapRecs, List.getElem?_concat_length]
  · intro v h
    exact ⟨by simp [createTable, h], by simp [getTable, h]⟩

theorem tinv_applyOp (s : TableState × List Int) (op : TOp) (h : TInv s) :
    TInv (applyOp s op) := by
  obtain ⟨⟨recs, nid⟩, issued⟩ := s
  obtain ⟨hk, hi⟩ := h
  simp only [TInv] at hk hi ⊢
  cases op with
  | create d =>
    simp only [applyOp, createRecord]
    refine ⟨?_, ?_⟩
    · intro k v hv
      by_cases hkk : k = nid
      · subst hkk
        rw [alGet_alSet_self] at hv
        exact ⟨⟨k, d⟩, (Option.some.inj hv).symm, rfl⟩
      · rw [alGet_alSet_ne _ _ _ _ hkk] at hv
        exact hk k v hv
    · intro id hid
      rcases List.mem_cons.mp hid with he | hm
      · omega
      · have := hi id hm
        omega
  | update id d =>
    cases hget : alGet recs id with
    | none => exact ⟨by simpa [applyOp, updateRecord, hget] using hk,
                     by simpa [applyOp, updateRecord, hget] using hi⟩
    | some v =>
      cases v with
      | other => exact ⟨by simpa [applyOp, updateRecord, hget] using hk,
                        by simpa [applyOp, updateRecord, hget] using hi⟩
      | rcd r =>
        obtain ⟨r0, hr0, hr0id⟩ := hk id (RVal.rcd r) hget
        have hrid : r.id = id := by
          cases hr0
          exact hr0id
        simp only [applyOp, updateRecord, hget]
        refine ⟨?_, hi⟩
        intro k v2 hv2
        by_cases hkk : k = id
        · subst hkk
          rw [alGet_alSet_self] at hv2
          exact ⟨⟨r.id, d⟩, (Option.some.inj hv2).symm, hrid⟩
        · rw [alGet_alSet_ne _ _ _ _ hkk] at hv2
          exact hk k v2 hv2
  | delete id =>
    cases hget : alGet recs id with
    | none => exact ⟨by simpa [applyOp, deleteRecord, hget] using hk,
                     by simpa [applyOp, deleteRecord, hget] using hi⟩
    | some v =>
      simp only [applyOp, deleteRecord, hget]
      refine ⟨?_, hi⟩
      intro k v2 hv2
      by_cases hkk : k = id
      · subst hkk
        rw [alGet_alRemove_self] at hv2
        cases hv2
      · rw [alGet_alRemove_ne _ _ _ hkk] at hv2
        exact hk k v2 hv2

theorem applyOp_next_mono (s : TableState × List Int) (op : TOp) :
    s.1.nextID ≤ (applyOp s op).1.nextID := by
  obtain ⟨⟨recs, nid⟩, issued⟩ := s
  cases op with
  | create d => simp [applyOp, createRecord]
  | update id d =>
    cases hget : alGet recs id with
    | none => simp [applyOp, updateRecord, hget]
    | some v => cases v <;> simp [applyOp, updateRecord, hget]
  | delete id =>
    cases hget : alGet recs id with
    | none => simp [applyOp, deleteRecord, hget]
    | some v => simp [applyOp, deleteRecord, hget]

theorem applyOp_issued_mono (s : TableState × List Int) (op : TOp) (id : Int)
    (h : id ∈ s.2) : id ∈ (applyOp s op).2 := by
  obtain ⟨⟨recs, nid⟩, issued⟩ := s
  cases op with
  | create d => simp only [applyOp, createRecord]; exact List.mem_cons_of_mem _ h
  | update i d =>
    cases hget : alGet recs i with
    | none => simpa [applyOp, updateRecord, hget] using h
    | some v => cases v <;> simpa [applyOp, updateRecord, hget] using h
  | delete i =>
    cases hget : alGet recs i with
    | none => simpa [applyOp, deleteRecord, hget] using h
    | some v => simpa [applyOp, deleteRecord, hget] using h

theorem foldl_tinv (ops : List TOp) (s : TableState × List Int) (h : TInv s) :
    TInv (List.foldl applyOp s ops) := by
  induction ops generalizing s with
  | nil => exact h
  | cons op rest ih => exact ih _ (tinv_applyOp s op h)

theorem foldl_next_mono (ops : List TOp) (s : TableState × List Int) :
    s.1.nextID ≤ (List.foldl applyOp s ops).1.nextID := by
  induction ops generalizing s with
  | nil => exact le_refl _
  | cons op rest ih =>
    exact le_trans (applyOp_next_mono s op) (ih (applyOp s op))

/-- C7: in every table state reachable through the public operations,
every stored slot is a record whose `ID` field equals its key, every
identifier ever issued (deleted ones included) is strictly below
`nextID`, a successful `DeleteRecord(id)` makes `ReadRecord(id)` fail
with NotFound, and no `CreateRecord` at this or any later reachable state
ever returns an already-issued id again. -/
theorem claim7_invariants (ops : List TOp) :
    (∀ k v, alGet (runOps ops).1.recs k = some v → ∃ r, v = RVal.rcd r ∧ r.id = k) ∧
    (∀ id, id ∈ (runOps ops).2 → id < (runOps ops).1.nextID) ∧
    (∀ id t2, deleteRecord (runOps ops).1 id = Except.ok t2 →
      readRecord t2 id = Except.error "ReadRecord: record not found") ∧
    (∀ more d id, id ∈ (runOps ops).2 →
      (createRecord (runOps (ops ++ more)).1 d).2.1.id ≠ id) := by
  have hbase : TInv (newTableState, []) := by
    refine ⟨?_, ?_⟩
    · intro k v hv
      simp [alGet, newTableState] at hv
    · intro id hid
      simp at hid
  have hinv : TInv (runOps ops) := foldl_tinv ops _ hbase
  refine ⟨hinv.1, hinv.2, ?_, ?_⟩
  · intro id t2 hd
    cases hget : alGet (runOps ops).1.recs id with
    | none => simp [deleteRecord, hget] at hd
    | some v =>
      simp only [deleteRecord, hget, Except.ok.injEq] at hd
      subst hd
      simp [readRecord, alGet_alRemove_self]
  · intro more d id hid
    have h1 : id < (runOps ops).1.nextID := hinv.2 id hid
    have hruns : runOps (ops ++ more) = List.foldl applyOp (runOps ops) more := by
      simp [runOps, List.foldl_append]
    have h2 := foldl_next_mono more (runOps ops)
    rw [hruns]
    simp only [createRecord]
    omega

/-- Witness for C8 at a concrete table: updating the present id 1
succeeds and reads back the new payload; updating the absent id 2 fails
with NotFound. -/
theorem claim8_update_frame_witness :
    (∃ t2, updateRecord ⟨[(1, RVal.rcd ⟨1, Data.num 5⟩)], 2⟩ 1 (Data.num 6) = Except.ok t2 ∧
      alGet t2.recs 1 = some (RVal.rcd ⟨1, Data.num 6⟩) ∧
      (∀ k, k ≠ 1 → alGet t2.recs k = alGet (⟨[(1, RVal.rcd ⟨1, Data.num 5⟩)], 2⟩ : TableState).recs k) ∧
      t2.nextID = (⟨[(1, RVal.rcd ⟨1, Data.num 5⟩)], 2⟩ : TableState).nextID ∧
      readRecord t2 1 = Except.ok (Data.num 6)) ∧
    updateRecord ⟨[(1, RVal.rcd ⟨1, Data.num 5⟩)], 2⟩ 2 (Data.num 6) =
      Except.error "UpdateRecord: record not found" :=
  ⟨(claim8_update_frame ⟨[(1, RVal.rcd ⟨1, Data.num 5⟩)], 2⟩ 1 (Data.num 6)).1 ⟨1, Data.num 5⟩ rfl,
   (claim8_update_frame ⟨[(1, RVal.rcd ⟨1, Data.num 5⟩)], 2⟩ 2 (Data.num 6)).2 rfl⟩

/-- Witness for C10 at concrete databases: creating a fresh name
succeeds and registers an empty table, looking it up on an empty registry
fails, and the duplicate-name / present-name cases behave as stated. -/
theorem claim10_registry_witness :
    ((∃ db2, createTable newDatabase "users" = Except.ok db2 ∧
        alGet db2.tables "users" = some (TValue.val ⟨0, 1⟩) ∧
        heapRecs db2 0 = []) ∧
      getTable newDatabase "users" = Except.error "GetTable: table not found") ∧
    createTable dbUsers "users" = Except.error "CreateTable: table already exists" ∧
    getTable dbUsers "users" = Except.ok (TValue.val ⟨0, 1⟩) :=
  ⟨(claim10_registry newDatabase "users").1 rfl,
   (claim10_registry dbUsers "users").2 (TValue.val ⟨0, 1⟩) rfl⟩

/-- Witness for C7 at a concrete operation sequence: after creating
record 1, deleting it makes reading it fail with NotFound, and a further
create does not return 1 again. -/
theorem claim7_invariants_witness :
    readRecord ⟨[], 2⟩ 1 = Except.error "ReadRecord: record not found" ∧
    (createRecord (runOps [TOp.create (Data.num 1)]).1 (Data.num 2)).2.1.id ≠ 1 := by
  have h := claim7_invariants [TOp.create (Data.num 1)]
  exact ⟨h.2.2.1 1 ⟨[], 2⟩ rfl, h.2.2.2 [] (Data.num 2) 1 (by decide)⟩

/-- C4 (amended): a handle returned by `GetTable` for a
`CreateTable`-registered table is a VALUE COPY of the stored `Table`, but
the copy shares the `records` pointer; hence a record created through one
such handle is returned by `ReadRecord` of its id through the other
handle, as long as no interfering create went through the other copy. -/
theorem claim4_shared_records (db : DBState) (name : String) (t : GoTable) (d : Data)
    (_hget : getTable db name = Except.ok (TValue.val t))
    (hp : t.recordsPtr < db.recHeap.length) :
    handleRead (handleCreate db (TValue.val t) d).1 (TValue.val t)
      (handleCreate db (TValue.val t) d).2.2.id = Except.ok d := by
  have hh : heapRecs ((handleCreate db (TValue.val t) d).1) t.recordsPtr
      = alSet (heapRecs db t.recordsPtr) t.nextID (RVal.rcd ⟨t.nextID, d⟩) := by
    simp [handleCreate, createRecord, heapRecs, List.get?_eq_getElem?,
      List.getElem?_set_eq_of_lt _ hp]
  simp only [handleRead, handleCreate, createRecord] at hh ⊢
  simp [hh, readRecord, alGet_alSet_self]

/-- Witness for the amended C4 on the database produced by
`CreateTable("t")`. -/
theorem claim4_shared_records_witness :
    getTable dbT "t" = Except.ok (TValue.val ⟨0, 1⟩) ∧
    (0 : Nat) < dbT.recHeap.length ∧
    handleRead (handleCreate dbT (TValue.val ⟨0, 1⟩) (Data.num 10)).1 (TValue.val ⟨0, 1⟩)
      (handleCreate dbT (TValue.val ⟨0, 1⟩) (Data.num 10)).2.2.id = Except.ok (Data.num 10) :=
  ⟨rfl, by decide, claim4_shared_records dbT "t" ⟨0, 1⟩ (Data.num 10) rfl (by decide)⟩

/-- Counterexample for C4 as stated: the two `GetTable("t")` handles do
NOT share ownership of one underlying `Table` — each is a value copy with
its own `nextID` — so a create through the second handle re-issues id 1,
overwrites the record created through the first handle, and the record
created through handle one (payload 10) is no longer returned by a read
of its id: the read yields the second handle's payload 20. -/
theorem claim4_counterexample :
    getTable dbT "t" = Except.ok (TValue.val ⟨0, 1⟩) ∧
    (handleCreate dbT (TValue.val ⟨0, 1⟩) (Data.num 10)).2.2.id = 1 ∧
    (handleCreate (handleCreate dbT (TValue.val ⟨0, 1⟩) (Data.num 10)).1
        (TValue.val ⟨0, 1⟩) (Data.num 20)).2.2.id = 1 ∧
    handleRead (handleCreate (handleCreate dbT (TValue.val ⟨0, 1⟩) (Data.num 10)).1
        (TValue.val ⟨0, 1⟩) (Data.num 20)).1
      (handleCreate dbT (TValue.val ⟨0, 1⟩) (Data.num 10)).2.1 1 = Except.ok (Data.num 20) ∧
    Data.num 20 ≠ Data.num 10 :=
  ⟨rfl, rfl, rfl, rfl, by decide⟩

/-- C1 fails on the code: `Save` writes no catalog file, so `Load`
against the directory just saved cannot even start (shown on the empty
database, whose save completes writing nothing); and for any database
with a `CreateTable`-registered table, `Save` panics on the unchecked
`val.(*Table)` assertion before writing anything. -/
theorem claim1_roundtrip_fails :
    (save ⟨[], []⟩ newDatabase "now").2.2 = SaveOutcome.completed ∧
    (save ⟨[], []⟩ newDatabase "now").1 = ⟨[], []⟩ ∧
    (load (save ⟨[], []⟩ newDatabase "now").1 (save ⟨[], []⟩ newDatabase "now").2.1 "d/").2 =
      some "Database_Load: open master failed" ∧
    createTable newDatabase "t" = Except.ok dbT ∧
    (save ⟨[], []⟩ dbT "now").2.2 = SaveOutcome.panicked :=
  ⟨rfl, rfl, rfl, rfl, rfl⟩

/-- C2 fails on the code: loading a directory whose catalog names `t`
and whose `t.json` is malformed returns NO error, registers `t`, and
populates it from the leftover slice of the FAILED decode — records are
inserted exactly when decoding fails. -/
theorem claim2_decode_inverted :
    (load fsC2 newDatabase "d/").2 = none ∧
    alGet (load fsC2 newDatabase "d/").1.tables "t" = some (TValue.ref 0) ∧
    heapRecs (load fsC2 newDatabase "d/").1 0 = [(7, RVal.rcd ⟨7, Data.num 1⟩)] ∧
    heapTable (load fsC2 newDatabase "d/").1 0 = ⟨0, 8⟩ :=
  ⟨rfl, rfl, rfl, rfl⟩

/-- C3 fails on the code: with a loaded (hence `*Table`-registered)
nonempty table whose per-table file path fails to write, `Save` leaves
the file system untouched — the write failed — yet still returns `nil`. -/
theorem claim3_save_swallows_errors :
    (load fsC3 newDatabase "e/").2 = none ∧
    heapRecs (load fsC3 newDatabase "e/").1 0 = [(1, RVal.rcd ⟨1, Data.num 5⟩)] ∧
    (save fsC3 (load fsC3 newDatabase "e/").1 "now").1 = fsC3 ∧
    (save fsC3 (load fsC3 newDatabase "e/").1 "now").2.2 = SaveOutcome.completed :=
  ⟨rfl, rfl, rfl, rfl⟩

/-- C9 fails on the code: `Save`'s interpretation of a stored table is
the UNCHECKED assertion `val.(*Table)`, which panics — it does not take a
reported-error branch — on any table registered through `CreateTable`,
because `CreateTable` stores a `Table` value. -/
theorem claim9_save_panics :
    createTable newDatabase "users" = Except.ok dbUsers ∧
    (save ⟨[], []⟩ dbUsers "now").2.2 = SaveOutcome.panicked :=
  ⟨rfl, rfl⟩

/-- Counterexample for C5 as stated: after a successful `Load` of a
directory whose catalog names exactly `t` (with a WELL-FORMED `t.json`),
the registry does not equal the catalog set: `t` was never registered
(its decode succeeded, so the inverted branch dropped it) and the
previously registered table `old` survives. -/
theorem claim5_counterexample :
    createTable newDatabase "old" = Except.ok dbOld ∧
    (load fsC5 dbOld "f/").2 = none ∧
    alGet (load fsC5 dbOld "f/").1.tables "t" = none ∧
    alGet (load fsC5 dbOld "f/").1.tables "old" = some (TValue.val ⟨0, 1⟩) :=
  ⟨rfl, rfl, rfl, rfl⟩

theorem loadTables_frame (names : List String) (fs : FS) (folder n : String)
    (db : DBState) (h : n ∉ names) :
    alGet (loadTables fs db folder names).1.tables n = alGet db.tables n := by
  induction names generalizing db with
  | nil => rfl
  | cons name rest ih =>
    have hne : n ≠ name := fun he => h (he ▸ List.mem_cons_self name rest)
    have hrest : n ∉ rest := fun hr => h (List.mem_cons_of_mem _ hr)
    cases hread : fsRead fs (folder ++ name ++ ".json") with
    | none => simp only [loadTables, newTable, hread]
    | some fd =>
      cases hdec : decodeRecords fd with
      | ok rs =>
        simp only [loadTables, newTable, hread, hdec]
        exact ih _ hrest
      | error leftover =>
        simp only [loadTables, newTable, hread, hdec]
        rw [ih _ hrest]
        exact alGet_alSet_ne _ _ _ _ hne

theorem loadTables_tableHeap_frame (names : List String) (fs : FS) (folder : String)
    (db : DBState) (a : Nat) (ha : a < db.tableHeap.length) :
    (loadTables fs db folder names).1.tableHeap[a]? = db.tableHeap[a]? := by
  induction names generalizing db with
  | nil => rfl
  | cons name rest ih =>
    cases hread : fsRead fs (folder ++ name ++ ".json") with
    | none =>
      simp only [loadTables, newTable, hread]
      exact List.getElem?_append_left ha
    | some fd =>
      cases hdec : decodeRecords fd with
      | ok rs =>
        simp only [loadTables, newTable, hread, hdec]
        rw [ih _ (by simp; omega)]
        exact List.getElem?_append_left ha
      | error leftover =>
        simp only [loadTables, newTable, hread, hdec, heapTable, heapRecs,
          List.get?_eq_getElem?, List.getElem?_concat_length, Option.getD_some]
        rw [ih _ (by simp; omega)]
        rw [List.getElem?_set_ne (by omega)]
        exact List.getElem?_append_left ha

theorem loadTables_recHeap_frame (names : List String) (fs : FS) (folder : String)
    (db : DBState) (p : Nat) (hp : p < db.recHeap.length) :
    (loadTables fs db folder names).1.recHeap[p]? = db.recHeap[p]? := by
  induction names generalizing db with
  | nil => rfl
  | cons name rest ih =>
    cases hread : fsRead fs (folder ++ name ++ ".json") with
    | none =>
      simp only [loadTables, newTable, hread]
      exact List.getElem?_append_left hp
    | some fd =>
      cases hdec : decodeRecords fd with
      | ok rs =>
        simp only [loadTables, newTable, hread, hdec]
        rw [ih _ (by simp; omega)]
        exact List.getElem?_append_left hp
      | error leftover =>
        simp only [loadTables, newTable, hread, hdec, heapTable, heapRecs,
          List.get?_eq_getElem?, List.getElem?_concat_length, Option.getD_some]
        rw [ih _ (by simp; omega)]
        rw [List.getElem?_set_ne (by omega)]
        exact List.getElem?_append_left hp

theorem loadTables_skip_ok (names : List String) (fs : FS) (folder n : String)
    (fd2 : FileData) (rs : List Record) (db : DBState)
    (hnd : names.Nodup) (hn : n ∈ names)
    (hread : fsRead fs (folder ++ n ++ ".json") = some fd2)
    (hdec : decodeRecords fd2 = Except.ok rs) :
    alGet (loadTables fs db folder names).1.tables n = alGet db.tables n := by
  induction names generalizing db with
  | nil => cases hn
  | cons name rest ih =>
    have hnodup := List.nodup_cons.mp hnd
    rcases List.mem_cons.mp hn with he | hm
    · subst he
      simp only [loadTables, newTable, hread, hdec]
      exact loadTables_frame rest fs folder n _ hnodup.1
    · have hne : n ≠ name := fun he2 => hnodup.1 (he2 ▸ hm)
      cases hread2 : fsRead fs (folder ++ name ++ ".json") with
      | none => simp only [loadTables, newTable, hread2]
      | some fdh =>
        cases hdec2 : decodeRecords fdh with
        | ok rs2 =>
          simp only [loadTables, newTable, hread2, hdec2]
          exact ih _ hnodup.2 hm
        | error leftover =>
          simp only [loadTables, newTable, hread2, hdec2]
          rw [ih _ hnodup.2 hm]
          exact alGet_alSet_ne _ _ _ _ hne

theorem loadTables_reg_err (names : List String) (fs : FS) (folder n : String)
    (fd2 : FileData) (ps : List Record) (db : DBState)
    (hnd : names.Nodup) (hn : n ∈ names)
    (hread : fsRead fs (folder ++ n ++ ".json") = some fd2)
    (hdec : decodeRecords fd2 = Except.error ps)
    (hok : (loadTables fs db folder names).2 = none) :
    ∃ a t, alGet (loadTables fs db folder names).1.tables n = some (TValue.ref a) ∧
      (loadTables fs db folder names).1.tableHeap.get? a = some t ∧
      (loadTables fs db folder names).1.recHeap.get? t.recordsPtr =
        some (loadRecords ⟨[], 1⟩ ps).recs ∧
      t.nextID = (loadRecords ⟨[], 1⟩ ps).nextID := by
  induction names generalizing db with
  | nil => cases hn
  | cons name rest ih =>
    have hnodup := List.nodup_cons.mp hnd
    rcases List.mem_cons.mp hn with he | hm
    · subst he
      simp only [loadTables, newTable, hread, hdec, heapTable, heapRecs,
        List.get?_eq_getElem?, List.getElem?_concat_length, Option.getD_some] at hok ⊢
      refine ⟨db.tableHeap.length, ⟨db.recHeap.length, (loadRecords ⟨[], 1⟩ ps).nextID⟩,
        ?_, ?_, ?_, rfl⟩
      · rw [loadTables_frame rest fs folder n _ hnodup.1]
        exact alGet_alSet_self _ _ _
      · rw [loadTables_tableHeap_frame rest fs folder _ db.tableHeap.length (by simp)]
        rw [List.getElem?_set_eq_of_lt _ (by simp)]
      · rw [loadTables_recHeap_frame rest fs folder _ db.recHeap.length (by simp)]
        rw [List.getElem?_set_eq_of_lt _ (by simp)]
    · have hne : n ≠ name := fun he2 => hnodup.1 (he2 ▸ hm)
      cases hread2 : fsRead fs (folder ++ name ++ ".json") with
      | none => simp [loadTables, newTable, hread2] at hok
      | some fdh =>
        cases hdec2 : decodeRecords fdh with
        | ok rs2 =>
          simp only [loadTables, newTable, hread2, hdec2] at hok ⊢
          exact ih _ hnodup.2 hm hok
        | error leftover =>
          simp only [loadTables, newTable, hread2, hdec2] at hok ⊢
          exact ih _ hnodup.2 hm hok

/-- C5 (amended): a successful `Load` does not replace the registry.  A
name outside the catalog keeps its previous binding; a catalog name whose
file decodes successfully also keeps its previous binding (the inverted
branch drops the freshly built table); and a catalog name whose file
FAILS to decode is registered as a `*Table` holding exactly the records
of the leftover slice of the failed decode, with `next_id` recomputed
over that slice. -/
theorem claim5_load_registry (fs : FS) (db : DBState) (folder : String) (fd : FileData)
    (names : List String)
    (hm : fsRead fs (folder ++ "master.json") = some fd)
    (hc : decodeCatalog fd = some names)
    (hnd : names.Nodup) :
    (∀ n, n ∉ names → alGet (load fs db folder).1.tables n = alGet db.tables n) ∧
    (∀ n fd2 rs, n ∈ names → fsRead fs (folder ++ n ++ ".json") = some fd2 →
      decodeRecords fd2 = Except.ok rs →
      alGet (load fs db folder).1.tables n = alGet db.tables n) ∧
    (∀ n fd2 ps, n ∈ names → fsRead fs (folder ++ n ++ ".json") = some fd2 →
      decodeRecords fd2 = Except.error ps → (load fs db folder).2 = none →
      ∃ a t, alGet (load fs db folder).1.tables n = some (TValue.ref a) ∧
        (load fs db folder).1.tableHeap.get? a = some t ∧
        (load fs db folder).1.recHeap.get? t.recordsPtr =
          some (loadRecords ⟨[], 1⟩ ps).recs ∧
        t.nextID = (loadRecords ⟨[], 1⟩ ps).nextID) := by
  have hload : load fs db folder = loadTables fs { db with folder := folder } folder names := by
    simp only [load, hm, hc]
  rw [hload]
  refine ⟨?_, ?_, ?_⟩
  · intro n hnot
    exact loadTables_frame names fs folder n _ hnot
  · intro n fd2 rs hn hread hdec
    exact loadTables_skip_ok names fs folder n fd2 rs _ hnd hn hread hdec
  · intro n fd2 ps hn hread hdec hok
    exact loadTables_reg_err names fs folder n fd2 ps _ hnd hn hread hdec hok

/-- Witness for the amended C5 on a concrete directory: the previously
registered `old` survives a successful Load, the well-formed catalog
table `t` is not (re)registered, and the malformed catalog table `u` is
registered with the leftover records of its failed decode. -/
theorem claim5_load_registry_witness :
    alGet (load fsC5w dbOld "f/").1.tables "old" = alGet dbOld.tables "old" ∧
    alGet (load fsC5w dbOld "f/").1.tables "t" = alGet dbOld.tables "t" ∧
    (∃ a t, alGet (load fsC5w dbOld "f/").1.tables "u" = some (TValue.ref a) ∧
      (load fsC5w dbOld "f/").1.tableHeap.get? a = some t ∧
      (load fsC5w dbOld "f/").1.recHeap.get? t.recordsPtr =
        some (loadRecords ⟨[], 1⟩ [⟨2, Data.num 9⟩]).recs ∧
      t.nextID = (loadRecords ⟨[], 1⟩ [⟨2, Data.num 9⟩]).nextID) := by
  have h := claim5_load_registry fsC5w dbOld "f/" (FileData.catalogJson ["t", "u"])
    ["t", "u"] rfl rfl (by decide)
  exact ⟨h.1 "old" (by decide), h.2.1 "t" (FileData.recordsJson [⟨1, Data.num 3⟩])
    [⟨1, Data.num 3⟩] (by decide) rfl rfl,
    h.2.2 "u" (FileData.malformedRecords [⟨2, Data.num 9⟩]) [⟨2, Data.num 9⟩]
      (by decide) rfl rfl rfl⟩

end Velox
